import Mathlib

/-!
Verification development for the RentMaster property-management backend.

The definitions below are a shallow embedding of the TypeScript controllers:

* `createLease`, `updateLease`, `terminateLease` embed the handlers of
  `lease.controller.ts`: the relational store (tenants, locals, leases) is
  modelled as explicit lists of rows, Prisma lookups (`findUnique`,
  `findMany where`) become `List.find?` / `List.filter`, and the sequential
  `await` writes become explicit state passing.  The generated UUIDs and
  `new Date()` values are passed in as parameters.
* `createLeaseF` additionally threads two failure flags that model a thrown
  database error at either of the two writes of `createLease` (the lease
  insert and the unit-status update); the `catch` block of the handler
  returns a 500 response, leaving whatever writes already happened.
* `revenueData`, `revenueByMode`, `totalRevenue`, `totalTransactions` embed
  the aggregation of `getRevenueReport` in `dashboard.controller.ts`
  (SQL `WHERE status = COMPLETED AND paid_at BETWEEN $1 AND $2`,
  `GROUP BY year, month[, day]`, and the Prisma `groupBy payment_mode_id`).
* `propertyOccupancy` / `overallOccupancyRate` embed `getOccupancyReport`.
  JavaScript numbers are modelled as exact rationals (`ℚ`); `Math.round`
  is Mathlib's `round` (both round halves toward positive infinity).
* `uploadDocument` embeds the validation/cleanup paths of
  `document.controller.ts`, with the disk modelled as a list of file paths
  (multer has already written the uploaded file before the handler runs).
* `createPayment` embeds `payment.controller.ts`.

Timestamps are modelled as `Nat` where only ordering matters, and as the
calendar record `PDate` where the code extracts year/month/day fields.
-/

/-! ## Data model (Prisma schema rows used by the lease lifecycle) -/

inductive LocalStatus
  | AVAILABLE
  | OCCUPIED
  | MAINTENANCE
  deriving DecidableEq, Repr

inductive LeaseStatus
  | ACTIVE
  | TERMINATED
  deriving DecidableEq, Repr

inductive BillingCycle
  | MONTHLY
  | QUARTERLY
  deriving DecidableEq, Repr

structure Tenant where
  id : String
  deriving DecidableEq, Repr

structure Local where
  id : String
  property_id : String
  status : LocalStatus
  deriving DecidableEq, Repr

structure Lease where
  id : String
  tenant_id : String
  local_id : String
  lease_reference : String
  start_date : Nat
  end_date : Option Nat
  rent_amount : Int
  billing_cycle : BillingCycle
  status : LeaseStatus
  deriving DecidableEq, Repr

/-- The relational store as seen by the lease handlers: one list of rows per
table.  (Audit-log rows are append-only and never read back by the logic the
claims are about, so they are not part of the state.) -/
structure Store where
  tenants : List Tenant
  locals : List Local
  leases : List Lease
  deriving DecidableEq, Repr

/-! ## Prisma query helpers -/

def findTenant (s : Store) (id : String) : Option Tenant :=
  s.tenants.find? (fun t => t.id == id)

def findLocal (s : Store) (id : String) : Option Local :=
  s.locals.find? (fun l => l.id == id)

def findLease (s : Store) (id : String) : Option Lease :=
  s.leases.find? (fun l => l.id == id)

def findLeaseByRef (s : Store) (r : String) : Option Lease :=
  s.leases.find? (fun l => l.lease_reference == r)

/-- The `include: { leases: { where: { status: 'ACTIVE' } } }` relation of a
local: all ACTIVE leases referencing it. -/
def activeLeasesOf (s : Store) (lid : String) : List Lease :=
  s.leases.filter (fun l => l.local_id == lid && l.status == LeaseStatus.ACTIVE)

/-- Number of ACTIVE leases referencing the unit `lid`. -/
def activeCount (s : Store) (lid : String) : Nat :=
  (activeLeasesOf s lid).length

/-- `prisma.local.update({ where: { id }, data: { status } })`. -/
def updateLocalStatus (s : Store) (lid : String) (st : LocalStatus) : Store :=
  { s with locals := s.locals.map (fun l => if l.id == lid then { l with status := st } else l) }

/-- `prisma.lease.update({ where: { id }, data: ... })` with the new row
value already computed. -/
def updateLeaseRow (s : Store) (id : String) (upd : Lease) : Store :=
  { s with leases := s.leases.map (fun l => if l.id == id then upd else l) }

/-- Outcome of a lease handler: the JSON-serialized lease on success, or an
HTTP error status with the response message. -/
inductive LeaseResult
  | ok (lease : Lease)
  | err (code : Nat) (msg : String)
  deriving DecidableEq, Repr

/-! ## Lease handlers (`lease.controller.ts`) -/

structure CreateLeaseInput where
  tenant_id : String
  local_id : String
  lease_reference : String
  start_date : Nat
  end_date : Option Nat
  rent_amount : Int
  billing_cycle : BillingCycle
  deriving DecidableEq, Repr

/-- `createLease` with failure injection: `failInsert` models
`prisma.lease.create` throwing, `failUnitUpdate` models `prisma.local.update`
throwing after the lease row was inserted.  In either case the handler's
`catch` returns a 500 response without undoing earlier writes. -/
def createLeaseF (s : Store) (inp : CreateLeaseInput) (newId : String)
    (failInsert failUnitUpdate : Bool) : LeaseResult × Store :=
  match findTenant s inp.tenant_id with
  | none => (.err 404 "Tenant not found", s)
  | some _ =>
    match findLocal s inp.local_id with
    | none => (.err 404 "Local not found", s)
    | some loc =>
      if loc.status ≠ LocalStatus.AVAILABLE then
        (.err 400 "Local is not available", s)
      else if (activeLeasesOf s inp.local_id).length > 0 then
        (.err 400 "Local is already leased", s)
      else
        match findLeaseByRef s inp.lease_reference with
        | some _ => (.err 400 "Lease reference already exists", s)
        | none =>
          if failInsert then (.err 500 "Internal server error", s)
          else
            let lease : Lease :=
              { id := newId
                tenant_id := inp.tenant_id
                local_id := inp.local_id
                lease_reference := inp.lease_reference
                start_date := inp.start_date
                end_date := inp.end_date
                rent_amount := inp.rent_amount
                billing_cycle := inp.billing_cycle
                status := LeaseStatus.ACTIVE }
            let s1 : Store := { s with leases := s.leases ++ [lease] }
            if failUnitUpdate then (.err 500 "Internal server error", s1)
            else (.ok lease, updateLocalStatus s1 inp.local_id LocalStatus.OCCUPIED)

/-- The `createLease` handler on the failure-free path. -/
def createLease (s : Store) (inp : CreateLeaseInput) (newId : String) : LeaseResult × Store :=
  createLeaseF s inp newId false false

/-- Request body of `PUT /api/leases/:id`; absent fields are `none`
(Prisma skips `undefined` fields). -/
structure UpdateLeaseInput where
  id : String
  lease_reference : Option String
  start_date : Option Nat
  end_date : Option Nat
  rent_amount : Option Int
  billing_cycle : Option BillingCycle
  status : Option LeaseStatus
  deriving DecidableEq, Repr

/-- The row Prisma writes for `prisma.lease.update`: supplied fields replace
the stored ones, absent (`undefined`) fields are skipped. -/
def appliedLeaseUpdate (existing : Lease) (inp : UpdateLeaseInput) : Lease :=
  { existing with
    lease_reference := inp.lease_reference.getD existing.lease_reference
    start_date := inp.start_date.getD existing.start_date
    end_date := match inp.end_date with
      | some d => some d
      | none => existing.end_date
    rent_amount := inp.rent_amount.getD existing.rent_amount
    billing_cycle := inp.billing_cycle.getD existing.billing_cycle
    status := inp.status.getD existing.status }

def updateLease (s : Store) (inp : UpdateLeaseInput) : LeaseResult × Store :=
  match findLease s inp.id with
  | none => (.err 404 "Lease not found", s)
  | some existing =>
    let refConflict : Bool :=
      match inp.lease_reference with
      | some r => if r ≠ existing.lease_reference then (findLeaseByRef s r).isSome else false
      | none => false
    if refConflict then (.err 400 "Lease reference already exists", s)
    else
      let updated := appliedLeaseUpdate existing inp
      let s1 := updateLeaseRow s inp.id updated
      let s2 := if inp.status == some LeaseStatus.TERMINATED
        then updateLocalStatus s1 existing.local_id LocalStatus.AVAILABLE
        else s1
      (.ok updated, s2)

def terminateLease (s : Store) (id : String) (termination_date : Option Nat)
    (now : Nat) : LeaseResult × Store :=
  match findLease s id with
  | none => (.err 404 "Lease not found", s)
  | some existing =>
    if existing.status == LeaseStatus.TERMINATED then
      (.err 400 "Lease is already terminated", s)
    else
      let updated : Lease :=
        { existing with
          status := LeaseStatus.TERMINATED
          end_date := some (termination_date.getD now) }
      let s1 := updateLeaseRow s id updated
      (.ok updated, updateLocalStatus s1 existing.local_id LocalStatus.AVAILABLE)

/-! ## Invariant and well-formedness -/

/-- The spec's unit/lease invariant: a unit is OCCUPIED iff exactly one
ACTIVE lease references it, and no unit ever has more than one ACTIVE
lease. -/
def unitLeaseInvariant (s : Store) : Prop :=
  ∀ loc ∈ s.locals,
    (loc.status = LocalStatus.OCCUPIED ↔ activeCount s loc.id = 1) ∧ activeCount s loc.id ≤ 1

instance (s : Store) : Decidable (unitLeaseInvariant s) := by
  unfold unitLeaseInvariant; exact List.decidableBAll _ _

/-- Database well-formedness: primary keys are unique. -/
def wfStore (s : Store) : Prop :=
  (s.leases.map Lease.id).Nodup ∧ (s.locals.map Local.id).Nodup

instance (s : Store) : Decidable (wfStore s) := by
  unfold wfStore; infer_instance

/-! ## Step relations over the lease operations -/

/-- One call of any of the three lease handlers (with any input and any
outcome).  Freshly generated lease ids are unique, which the database
guarantees for generated primary keys. -/
inductive LeaseOpStep : Store → Store → Prop
  | create (s : Store) (inp : CreateLeaseInput) (newId : String)
      (hfresh : newId ∉ s.leases.map Lease.id) :
      LeaseOpStep s (createLease s inp newId).2
  | update (s : Store) (inp : UpdateLeaseInput) :
      LeaseOpStep s (updateLease s inp).2
  | terminate (s : Store) (id : String) (td : Option Nat) (now : Nat) :
      LeaseOpStep s (terminateLease s id td now).2

inductive LeaseOpReachable (s : Store) : Store → Prop
  | refl : LeaseOpReachable s s
  | step (t u : Store) : LeaseOpReachable s t → LeaseOpStep t u → LeaseOpReachable s u

/-- One call of `createLease` or `terminateLease` only (the dedicated
lifecycle operations, excluding the generic `updateLease`). -/
inductive CTStep : Store → Store → Prop
  | create (s : Store) (inp : CreateLeaseInput) (newId : String)
      (hfresh : newId ∉ s.leases.map Lease.id) :
      CTStep s (createLease s inp newId).2
  | terminate (s : Store) (id : String) (td : Option Nat) (now : Nat) :
      CTStep s (terminateLease s id td now).2

inductive CTReachable (s : Store) : Store → Prop
  | refl : CTReachable s s
  | step (t u : Store) : CTReachable s t → CTStep t u → CTReachable s u

/-! ## Payments and the revenue report (`payment.controller.ts`,
`dashboard.controller.ts`) -/

inductive PaymentStatus
  | PENDING
  | COMPLETED
  deriving DecidableEq, Repr

/-- A calendar timestamp: the fields SQL `EXTRACT(YEAR/MONTH/DAY ...)` reads,
plus the time within the day so that range endpoints compare at timestamp
granularity. -/
structure PDate where
  year : Nat
  month : Nat
  day : Nat
  minuteOfDay : Nat
  deriving DecidableEq, Repr

/-- Chronological (lexicographic) order on timestamps. -/
def PDate.Le (a b : PDate) : Prop :=
  a.year < b.year ∨ (a.year = b.year ∧
    (a.month < b.month ∨ (a.month = b.month ∧
      (a.day < b.day ∨ (a.day = b.day ∧ a.minuteOfDay ≤ b.minuteOfDay)))))

instance (a b : PDate) : Decidable (PDate.Le a b) := by
  unfold PDate.Le; infer_instance

def PDate.Lt (a b : PDate) : Prop := PDate.Le a b ∧ a ≠ b

instance (a b : PDate) : Decidable (PDate.Lt a b) := by
  unfold PDate.Lt; infer_instance

structure Payment where
  id : String
  lease_id : String
  amount : Int
  paid_at : PDate
  payment_mode_id : String
  reference : Option String
  status : PaymentStatus
  deriving DecidableEq, Repr

/-- The `WHERE` clause of the revenue report:
`status = 'COMPLETED' AND paid_at >= $1 AND paid_at <= $2`. -/
def inRange (s e : PDate) (p : Payment) : Bool :=
  p.status == PaymentStatus.COMPLETED && decide (PDate.Le s p.paid_at)
    && decide (PDate.Le p.paid_at e)

def revenueFilter (ps : List Payment) (s e : PDate) : List Payment :=
  ps.filter (inRange s e)

inductive GroupBy
  | day
  | month
  deriving DecidableEq, Repr

/-- The SQL `GROUP BY` key: `[year, month]` for monthly grouping,
`[year, month, day]` for daily grouping. -/
def bucketKey (gb : GroupBy) (p : Payment) : List Nat :=
  match gb with
  | .month => [p.paid_at.year, p.paid_at.month]
  | .day => [p.paid_at.year, p.paid_at.month, p.paid_at.day]

/-- One row of the `revenueData` result set. -/
structure RevenueRow where
  period : List Nat
  amount : Int
  count : Nat
  deriving DecidableEq, Repr

/-- One row of the `revenueByPaymentMode` result set (keyed by
`payment_mode_id`; the display-name join does not change the numbers). -/
structure ModeRow where
  payment_mode_id : String
  amount : Int
  count : Nat
  deriving DecidableEq, Repr

/-- Grouped aggregation: one output row per distinct key of the input,
carrying the sum of amounts and the row count of its group. -/
def groupRows (l : List Payment) (k : Payment → List Nat) : List RevenueRow :=
  ((l.map k).dedup).map (fun key =>
    let g := l.filter (fun p => k p == key)
    { period := key, amount := (g.map Payment.amount).sum, count := g.length })

def revenueData (ps : List Payment) (s e : PDate) (gb : GroupBy) : List RevenueRow :=
  groupRows (revenueFilter ps s e) (bucketKey gb)

def revenueByMode (ps : List Payment) (s e : PDate) : List ModeRow :=
  let f := revenueFilter ps s e
  ((f.map Payment.payment_mode_id).dedup).map (fun m =>
    let g := f.filter (fun p => p.payment_mode_id == m)
    { payment_mode_id := m, amount := (g.map Payment.amount).sum, count := g.length })

/-- `totalRevenue: revenueData.reduce((sum, item) => sum + (item.amount || 0), 0)`. -/
def totalRevenue (ps : List Payment) (s e : PDate) (gb : GroupBy) : Int :=
  ((revenueData ps s e gb).map RevenueRow.amount).sum

/-- `totalTransactions: revenueData.reduce((sum, item) => sum + item.count, 0)`. -/
def totalTransactions (ps : List Payment) (s e : PDate) (gb : GroupBy) : Nat :=
  ((revenueData ps s e gb).map RevenueRow.count).sum

/-! ## Occupancy report (`dashboard.controller.ts`) -/

/-- `Math.round(x * 100) / 100` on exact rationals. -/
def roundTo2 (x : ℚ) : ℚ := ((round (x * 100) : ℤ) : ℚ) / 100

def occupiedCount (locs : List Local) : Nat :=
  (locs.filter (fun l => l.status == LocalStatus.OCCUPIED)).length

/-- The `occupancyRate` field of one per-property row of
`getOccupancyReport`:
`totalLocals > 0 ? (occupiedLocals / totalLocals) * 100 : 0`, then
`Math.round(occupancyRate * 100) / 100`. -/
def propertyOccupancy (locs : List Local) : ℚ :=
  let totalLocals := locs.length
  let rate : ℚ := if totalLocals > 0 then ((occupiedCount locs : ℚ) / (totalLocals : ℚ)) * 100 else 0
  ((round (rate * 100) : ℤ) : ℚ) / 100

/-- The `overallOccupancyRate` field: per-property unit counts are summed and
`totalLocals > 0 ? Math.round((totalOccupied / totalLocals) * 10000) / 100 : 0`. -/
def overallOccupancyRate (props : List (List Local)) : ℚ :=
  let totalLocals := (props.map List.length).sum
  let totalOccupied := (props.map occupiedCount).sum
  if totalLocals > 0 then
    ((round (((totalOccupied : ℚ) / (totalLocals : ℚ)) * 10000) : ℤ) : ℚ) / 100
  else 0

/-! ## Document upload (`document.controller.ts`) -/

/-- State seen by `uploadDocument`: the upload directory contents, the ids
the owner checks look up, and the document rows. -/
structure DocState where
  files : List String
  leaseIds : List String
  paymentIds : List String
  docs : List (String × String × String)
  deriving DecidableEq, Repr

/-- Request as the handler sees it: `req.file` has already been written to
disk by multer when present; body fields are `none` when missing/empty. -/
structure UploadReq where
  file : Option String
  owner_table : Option String
  owner_id : Option String
  doc_type : Option String
  deriving DecidableEq, Repr

inductive DocResult
  | created
  | err (code : Nat) (msg : String)
  deriving DecidableEq, Repr

/-- `fs.unlinkSync(req.file.path)`. -/
def removeFile (fs : List String) (p : String) : List String :=
  fs.filter (fun q => q != p)

def uploadDocument (st : DocState) (req : UploadReq) : DocResult × DocState :=
  match req.file with
  | none => (.err 400 "No file uploaded", st)
  | some path =>
    match req.owner_table, req.owner_id, req.doc_type with
    | some ot, some oid, some _ =>
      if ¬(ot == "LEASES" || ot == "PAYMENTS") then
        (.err 400 "owner_table must be either LEASES or PAYMENTS",
          { st with files := removeFile st.files path })
      else if ot == "LEASES" && !(st.leaseIds.contains oid) then
        (.err 404 "Lease not found", { st with files := removeFile st.files path })
      else if ot == "PAYMENTS" && !(st.paymentIds.contains oid) then
        (.err 404 "Payment not found", { st with files := removeFile st.files path })
      else
        (.created, { st with docs := st.docs ++ [(ot, oid, path)] })
    | _, _, _ =>
      (.err 400 "owner_table, owner_id, and doc_type are required",
        { st with files := removeFile st.files path })

/-! ## Payment creation (`payment.controller.ts`) -/

/-- Body of `POST /api/payments`.  The controller destructures only
`lease_id, amount, payment_mode_id, reference, status`; a client-supplied
`paid_at` is carried here to show it is never read. -/
structure CreatePaymentInput where
  lease_id : String
  amount : Int
  payment_mode_id : String
  reference : Option String
  status : Option PaymentStatus
  paid_at : Option PDate
  deriving DecidableEq, Repr

structure PayState where
  leaseIds : List String
  paymentModeIds : List String
  payments : List Payment
  deriving DecidableEq, Repr

inductive PaymentResult
  | ok (p : Payment)
  | err (code : Nat) (msg : String)
  deriving DecidableEq, Repr

def createPayment (st : PayState) (inp : CreatePaymentInput) (newId : String)
    (now : PDate) : PaymentResult × PayState :=
  if !(st.leaseIds.contains inp.lease_id) then (.err 404 "Lease not found", st)
  else if !(st.paymentModeIds.contains inp.payment_mode_id) then
    (.err 404 "Payment mode not found", st)
  else
    let p : Payment :=
      { id := newId
        lease_id := inp.lease_id
        amount := inp.amount
        paid_at := now
        payment_mode_id := inp.payment_mode_id
        reference := inp.reference
        status := inp.status.getD PaymentStatus.COMPLETED }
    (.ok p, { st with payments := st.payments ++ [p] })

/-- The dashboard's "overdue" predicate on a payment at time `t`:
`status: 'PENDING', paid_at: { lt: t }` (from `getDashboardStats`). -/
def isOverdue (p : Payment) (t : PDate) : Prop :=
  p.status = PaymentStatus.PENDING ∧ PDate.Lt p.paid_at t

instance (p : Payment) (t : PDate) : Decidable (isOverdue p t) := by
  unfold isOverdue; infer_instance

/-! ## Concrete example data used in witnesses and counterexamples -/

def demoTenant : Tenant := { id := "t1" }

def demoLocal : Local := { id := "u1", property_id := "p1", status := LocalStatus.AVAILABLE }

/-- A base store with one tenant and one AVAILABLE unit and no leases. -/
def demoStore : Store := { tenants := [demoTenant], locals := [demoLocal], leases := [] }

def c1inp1 : CreateLeaseInput :=
  { tenant_id := "t1", local_id := "u1", lease_reference := "LR-1", start_date := 0,
    end_date := none, rent_amount := 500, billing_cycle := BillingCycle.MONTHLY }

def c1inp2 : CreateLeaseInput :=
  { tenant_id := "t1", local_id := "u1", lease_reference := "LR-2", start_date := 10,
    end_date := none, rent_amount := 500, billing_cycle := BillingCycle.MONTHLY }

/-- Request body `{ status: 'ACTIVE' }` for `PUT /api/leases/L1`. -/
def c1upd : UpdateLeaseInput :=
  { id := "L1", lease_reference := none, start_date := none, end_date := none,
    rent_amount := none, billing_cycle := none, status := some LeaseStatus.ACTIVE }

def c1s1 : Store := (createLease demoStore c1inp1 "L1").2

def c1s2 : Store := (terminateLease c1s1 "L1" none 5).2

def c1s3 : Store := (createLease c1s2 c1inp2 "L2").2

def c1s4 : Store := (updateLease c1s3 c1upd).2

/-- A store holding one TERMINATED lease on the available unit. -/
def c4lease : Lease :=
  { id := "L1", tenant_id := "t1", local_id := "u1", lease_reference := "LR-1",
    start_date := 0, end_date := some 5, rent_amount := 500,
    billing_cycle := BillingCycle.MONTHLY, status := LeaseStatus.TERMINATED }

def c4store : Store := { tenants := [demoTenant], locals := [demoLocal], leases := [c4lease] }

/-- A store holding one ACTIVE lease on the (occupied) unit. -/
def activeLease : Lease :=
  { id := "L1", tenant_id := "t1", local_id := "u1", lease_reference := "LR-1",
    start_date := 0, end_date := none, rent_amount := 500,
    billing_cycle := BillingCycle.MONTHLY, status := LeaseStatus.ACTIVE }

def occupiedLocal : Local := { id := "u1", property_id := "p1", status := LocalStatus.OCCUPIED }

def activeStore : Store :=
  { tenants := [demoTenant], locals := [occupiedLocal], leases := [activeLease] }

/-- The revenue-report scenario: two COMPLETED payments of 100 and 50 and one
PENDING payment of 200, all in June 2025. -/
def c7p1 : Payment :=
  { id := "p1", lease_id := "L1", amount := 100, paid_at := ⟨2025, 6, 3, 0⟩,
    payment_mode_id := "m1", reference := none, status := PaymentStatus.COMPLETED }

def c7p2 : Payment :=
  { id := "p2", lease_id := "L1", amount := 50, paid_at := ⟨2025, 6, 20, 0⟩,
    payment_mode_id := "m2", reference := none, status := PaymentStatus.COMPLETED }

def c7p3 : Payment :=
  { id := "p3", lease_id := "L1", amount := 200, paid_at := ⟨2025, 6, 25, 0⟩,
    payment_mode_id := "m1", reference := none, status := PaymentStatus.PENDING }

def c7start : PDate := ⟨2025, 1, 1, 0⟩

def c7end : PDate := ⟨2025, 12, 31, 0⟩

def c9req : UploadReq :=
  { file := some "uploads/documents/file-1.pdf", owner_table := some "LEASES",
    owner_id := some "missing-lease", doc_type := some "CONTRACT" }

def c9state : DocState :=
  { files := ["uploads/documents/file-1.pdf"], leaseIds := ["L1"], paymentIds := [],
    docs := [] }

def c10state : PayState := { leaseIds := ["L1"], paymentModeIds := ["m1"], payments := [] }

/-- A request that supplies both an explicit PENDING status and a paid_at in
the past. -/
def c10inp : CreatePaymentInput :=
  { lease_id := "L1", amount := 100, payment_mode_id := "m1", reference := none,
    status := some PaymentStatus.PENDING, paid_at := some ⟨2020, 1, 1, 0⟩ }

def c10now : PDate := ⟨2025, 6, 15, 120⟩

/-- The payment row `createPayment` stores for `c10inp` at time `c10now`. -/
def c10payment : Payment :=
  { id := "P1"
    lease_id := "L1"
    amount := 100
    paid_at := c10now
    payment_mode_id := "m1"
    reference := none
    status := PaymentStatus.PENDING }

/-! ## List helper lemmas -/

lemma length_eq_sum_map_one {α : Type*} (l : List α) :
    l.length = (l.map (fun _ => (1 : Nat))).sum := by
  induction l with
  | nil => simp
  | cons hd tl ih =>
    simp only [List.length_cons, List.map_cons, List.sum_cons, ih]
    omega

lemma sum_filter_partition {α M : Type*} [AddCommMonoid M]
    (l : List α) (p : α → Bool) (f : α → M) :
    ((l.filter p).map f).sum + ((l.filter (fun x => !(p x))).map f).sum = (l.map f).sum := by
  induction l with
  | nil => simp
  | cons hd tl ih =>
    by_cases h : p hd <;>
      simp [h, List.filter_cons, List.map_cons, List.sum_cons, ← ih] <;> abel

/-- Summing group sums over a duplicate-free list of keys covering every
element reproduces the total sum. -/
lemma sum_over_keys {α κ M : Type*} [BEq κ] [LawfulBEq κ] [AddCommMonoid M]
    (f : α → M) (k : α → κ) :
    ∀ (K : List κ) (l : List α), K.Nodup → (∀ x ∈ l, k x ∈ K) →
      (K.map (fun key => ((l.filter (fun x => k x == key)).map f).sum)).sum = (l.map f).sum := by
  intro K
  induction K with
  | nil =>
    intro l _ hl
    have hnil : l = [] := by
      cases l with
      | nil => rfl
      | cons x xs => exact absurd (hl x (by simp)) (by simp)
    simp [hnil]
  | cons key K' ih =>
    intro l hnd hl
    obtain ⟨hkey, hnd'⟩ := List.nodup_cons.mp hnd
    have hfilter2 : ∀ key' ∈ K',
        (l.filter (fun x => !(k x == key))).filter (fun x => k x == key')
          = l.filter (fun x => k x == key') := by
      intro key' hk'
      rw [List.filter_filter]
      apply List.filter_congr
      intro x _
      by_cases h : (k x == key') = true
      · have hx : k x = key' := by simpa using h
        have hck : key' ≠ key := fun hck => hkey (hck ▸ hk')
        have hne : (k x == key) = false := by
          rw [hx]
          exact beq_eq_false_iff_ne.mpr hck
        simp [h, hne]
      · simp [h]
    have hcongr : K'.map (fun key' => ((l.filter (fun x => k x == key')).map f).sum)
        = K'.map (fun key' =>
            (((l.filter (fun x => !(k x == key))).filter (fun x => k x == key')).map f).sum) :=
      List.map_congr_left (fun key' hk' => by rw [hfilter2 key' hk'])
    have hcover : ∀ x ∈ l.filter (fun x => !(k x == key)), k x ∈ K' := by
      intro x hx
      have hxl := List.mem_filter.mp hx
      have hne : k x ≠ key := by simpa using hxl.2
      rcases List.mem_cons.mp (hl x hxl.1) with h | h
      · exact absurd h hne
      · exact h
    rw [List.map_cons, List.sum_cons, hcongr,
        ih (l.filter (fun x => !(k x == key))) hnd' hcover]
    exact sum_filter_partition l (fun x => k x == key) f

lemma eq_of_mem_of_id_eq {ls : List Lease} (hnd : (ls.map Lease.id).Nodup)
    {a b : Lease} (ha : a ∈ ls) (hb : b ∈ ls) (h : a.id = b.id) : a = b :=
  List.inj_on_of_nodup_map hnd ha hb h

/-- Splitting a duplicate-free row list at the row `find?` located. -/
lemma exists_split_of_find? {ls : List Lease} (hnd : (ls.map Lease.id).Nodup)
    {id : String} {l0 : Lease} (h : ls.find? (fun l => l.id == id) = some l0) :
    ∃ A B, ls = A ++ l0 :: B ∧ (∀ x ∈ A, (x.id == id) = false) ∧
      (∀ x ∈ B, (x.id == id) = false) := by
  have hmem : l0 ∈ ls := List.mem_of_find?_eq_some h
  have hid : l0.id = id := by simpa using List.find?_some h
  obtain ⟨A, B, rfl⟩ := List.append_of_mem hmem
  refine ⟨A, B, rfl, ?_, ?_⟩
  · intro x hx
    have hne : x.id ≠ l0.id := by
      intro hx0
      have hdisj := (List.nodup_append.mp (by simpa [List.map_append] using hnd)).2.2
      exact hdisj (List.mem_map_of_mem _ hx) (by simp [hx0])
    simp [hid ▸ hne]
  · intro x hx
    have hnb : (l0.id :: B.map Lease.id).Nodup :=
      ((List.nodup_append.mp (by simpa [List.map_append] using hnd)).2).1
    have hni : l0.id ∉ B.map Lease.id := (List.nodup_cons.mp hnb).1
    have hne : x.id ≠ l0.id := fun hx0 => hni (hx0 ▸ List.mem_map_of_mem _ hx)
    simp [hid ▸ hne]

lemma map_update_of_all_ne (L : List Lease) (upd : Lease) (id : String)
    (h : ∀ x ∈ L, (x.id == id) = false) :
    L.map (fun l => if l.id == id then upd else l) = L := by
  induction L with
  | nil => rfl
  | cons hd tl ih =>
    simp only [List.map_cons, h hd (by simp), Bool.false_eq_true, if_false,
      ih (fun x hx => h x (List.mem_cons_of_mem _ hx))]

lemma map_update_split (A B : List Lease) (l0 upd : Lease) (id : String)
    (hA : ∀ x ∈ A, (x.id == id) = false) (hB : ∀ x ∈ B, (x.id == id) = false)
    (h0 : (l0.id == id) = true) :
    (A ++ l0 :: B).map (fun l => if l.id == id then upd else l) = A ++ upd :: B := by
  rw [List.map_append, List.map_cons, map_update_of_all_ne A upd id hA,
      map_update_of_all_ne B upd id hB]
  simp [h0]

lemma countP_update (A B : List Lease) (l0 upd : Lease) (p : Lease → Bool) :
    (A ++ upd :: B).countP p + (if p l0 then 1 else 0)
      = (A ++ l0 :: B).countP p + (if p upd then 1 else 0) := by
  simp only [List.countP_append, List.countP_cons]
  cases hp0 : p l0 <;> cases hpu : p upd <;> simp <;> omega

/-! ## Facts about the store operations -/

/-- The ACTIVE-lease predicate on a row, as used by `activeLeasesOf`. -/
def activeFor (lid : String) (l : Lease) : Bool :=
  l.local_id == lid && l.status == LeaseStatus.ACTIVE

lemma activeCount_eq_countP (s : Store) (lid : String) :
    activeCount s lid = s.leases.countP (activeFor lid) := by
  simp only [activeCount, activeLeasesOf, List.countP_eq_length_filter]
  rfl

lemma activeCount_updateLocalStatus (s : Store) (lid : String) (st : LocalStatus)
    (lid' : String) : activeCount (updateLocalStatus s lid st) lid' = activeCount s lid' := rfl

lemma activeCount_append (s : Store) (nl : Lease) (lid : String) :
    activeCount { s with leases := s.leases ++ [nl] } lid
      = activeCount s lid + (if activeFor lid nl then 1 else 0) := by
  simp only [activeCount_eq_countP, List.countP_append, List.countP_cons, List.countP_nil]
  omega

lemma activeCount_updateLeaseRow (s : Store) {id : String} {l0 : Lease} (upd : Lease)
    (hnd : (s.leases.map Lease.id).Nodup)
    (hfind : findLease s id = some l0) (lid : String) :
    activeCount (updateLeaseRow s id upd) lid + (if activeFor lid l0 then 1 else 0)
      = activeCount s lid + (if activeFor lid upd then 1 else 0) := by
  obtain ⟨A, B, hsplit, hA, hB⟩ := exists_split_of_find? hnd hfind
  have h0' := List.find?_some (show s.leases.find? (fun l => l.id == id) = some l0 from hfind)
  have h0 : (l0.id == id) = true := h0'
  rw [activeCount_eq_countP, activeCount_eq_countP]
  show (s.leases.map fun l => if l.id == id then upd else l).countP (activeFor lid) + _ = _
  rw [hsplit, map_update_split A B l0 upd id hA hB h0]
  exact countP_update A B l0 upd (activeFor lid)

lemma wfStore_updateLocalStatus (s : Store) (lid : String) (st : LocalStatus)
    (hwf : wfStore s) : wfStore (updateLocalStatus s lid st) := by
  obtain ⟨h1, h2⟩ := hwf
  refine ⟨h1, ?_⟩
  have hids : (s.locals.map (fun l => if l.id == lid then { l with status := st } else l)).map
      Local.id = s.locals.map Local.id := by
    rw [List.map_map]
    apply List.map_congr_left
    intro x _
    by_cases h : x.id = lid <;> simp [h]
  show ((s.locals.map fun l => if l.id == lid then { l with status := st } else l).map
    Local.id).Nodup
  rw [hids]
  exact h2

lemma wfStore_updateLeaseRow (s : Store) (id : String) (upd : Lease)
    (hid : upd.id = id) (hwf : wfStore s) : wfStore (updateLeaseRow s id upd) := by
  obtain ⟨h1, h2⟩ := hwf
  refine ⟨?_, h2⟩
  have hids : (s.leases.map (fun l => if l.id == id then upd else l)).map Lease.id
      = s.leases.map Lease.id := by
    rw [List.map_map]
    apply List.map_congr_left
    intro x _
    by_cases h : x.id = id <;> simp [h, hid]
  show ((s.leases.map fun l => if l.id == id then upd else l).map Lease.id).Nodup
  rw [hids]
  exact h1

lemma wfStore_appendLease (s : Store) (nl : Lease)
    (hfresh : nl.id ∉ s.leases.map Lease.id) (hwf : wfStore s) :
    wfStore { s with leases := s.leases ++ [nl] } := by
  obtain ⟨h1, h2⟩ := hwf
  refine ⟨?_, h2⟩
  simp only [List.map_append, List.map_cons, List.map_nil, List.nodup_append]
  refine ⟨h1, by simp, ?_⟩
  intro a ha hb
  have hanl : a = nl.id := by simpa using hb
  exact hfresh (hanl ▸ ha)

lemma findLease_mem {s : Store} {id : String} {l0 : Lease} (h : findLease s id = some l0) :
    l0 ∈ s.leases ∧ l0.id = id := by
  constructor
  · exact List.mem_of_find?_eq_some (show s.leases.find? (fun l => l.id == id) = some l0 from h)
  · have h' := List.find?_some (show s.leases.find? (fun l => l.id == id) = some l0 from h)
    simpa using h'

lemma findLocal_mem {s : Store} {id : String} {loc : Local} (h : findLocal s id = some loc) :
    loc ∈ s.locals ∧ loc.id = id := by
  constructor
  · exact List.mem_of_find?_eq_some (show s.locals.find? (fun l => l.id == id) = some loc from h)
  · have h' := List.find?_some (show s.locals.find? (fun l => l.id == id) = some loc from h)
    simpa using h'

lemma findLocal_updateLocalStatus (s : Store) (lid : String) (st : LocalStatus)
    (q : String) :
    findLocal (updateLocalStatus s lid st) q
      = (findLocal s q).map (fun loc => if loc.id == lid then { loc with status := st } else loc) := by
  unfold findLocal updateLocalStatus
  have hfun : ((fun l : Local => l.id == q) ∘
      (fun loc : Local => if loc.id == lid then { loc with status := st } else loc))
        = fun loc : Local => loc.id == q := by
    funext loc
    by_cases h : loc.id = lid <;> simp [h]
  rw [List.find?_map, hfun]

/-! ## Preservation of the unit/lease invariant by the dedicated
lifecycle operations -/

lemma createLease_preserves (s : Store) (inp : CreateLeaseInput) (nid : String)
    (hfresh : nid ∉ s.leases.map Lease.id)
    (hwf : wfStore s) (hinv : unitLeaseInvariant s) :
    wfStore (createLease s inp nid).2 ∧ unitLeaseInvariant (createLease s inp nid).2 := by
  unfold createLease createLeaseF
  cases hT : findTenant s inp.tenant_id with
  | none => exact ⟨hwf, hinv⟩
  | some t =>
    cases hL : findLocal s inp.local_id with
    | none => exact ⟨hwf, hinv⟩
    | some loc0 =>
      dsimp only
      by_cases hav : loc0.status ≠ LocalStatus.AVAILABLE
      · rw [if_pos hav]
        exact ⟨hwf, hinv⟩
      · rw [if_neg hav]
        by_cases hact : (activeLeasesOf s inp.local_id).length > 0
        · rw [if_pos hact]
          exact ⟨hwf, hinv⟩
        · rw [if_neg hact]
          cases hR : findLeaseByRef s inp.lease_reference with
          | some _ => exact ⟨hwf, hinv⟩
          | none =>
            set nl : Lease :=
              { id := nid
                tenant_id := inp.tenant_id
                local_id := inp.local_id
                lease_reference := inp.lease_reference
                start_date := inp.start_date
                end_date := inp.end_date
                rent_amount := inp.rent_amount
                billing_cycle := inp.billing_cycle
                status := LeaseStatus.ACTIVE } with hnl
            show wfStore (updateLocalStatus { s with leases := s.leases ++ [nl] }
                inp.local_id LocalStatus.OCCUPIED) ∧
              unitLeaseInvariant (updateLocalStatus { s with leases := s.leases ++ [nl] }
                inp.local_id LocalStatus.OCCUPIED)
            have hact0 : activeCount s inp.local_id = 0 := Nat.eq_zero_of_not_pos hact
            have hcnt : ∀ lid', activeCount (updateLocalStatus
                { s with leases := s.leases ++ [nl] } inp.local_id LocalStatus.OCCUPIED) lid'
                  = activeCount s lid' + (if (inp.local_id == lid') = true then 1 else 0) := by
              intro lid'
              rw [activeCount_updateLocalStatus, activeCount_append]
              have : activeFor lid' nl = (inp.local_id == lid') := by
                simp [activeFor, hnl]
              rw [this]
            constructor
            · exact wfStore_updateLocalStatus _ _ _ (wfStore_appendLease s nl hfresh hwf)
            · intro loc' hloc'
              obtain ⟨loc, hloc, heq⟩ := List.mem_map.mp hloc'
              by_cases hcase : loc.id = inp.local_id
              · have hl' : loc' = { loc with status := LocalStatus.OCCUPIED } := by
                  rw [← heq]; simp [hcase]
                have hid' : loc'.id = inp.local_id := by rw [hl']; simpa using hcase
                have hcount1 : activeCount (updateLocalStatus
                    { s with leases := s.leases ++ [nl] } inp.local_id LocalStatus.OCCUPIED)
                    loc'.id = 1 := by
                  rw [hcnt loc'.id, hid']
                  simp [hact0]
                refine ⟨?_, by rw [hcount1]⟩
                constructor
                · intro _; exact hcount1
                · intro _; rw [hl']
              · have hl' : loc' = loc := by
                  rw [← heq]; simp [hcase]
                have hne : (inp.local_id == loc.id) = false := by
                  exact beq_eq_false_iff_ne.mpr (fun h => hcase h.symm)
                have hcount : activeCount (updateLocalStatus
                    { s with leases := s.leases ++ [nl] } inp.local_id LocalStatus.OCCUPIED)
                    loc.id = activeCount s loc.id := by
                  rw [hcnt loc.id, hne]
                  simp
                rw [hl', hcount]
                exact hinv loc hloc

lemma terminateLease_preserves (s : Store) (id : String) (td : Option Nat) (now : Nat)
    (hwf : wfStore s) (hinv : unitLeaseInvariant s) :
    wfStore (terminateLease s id td now).2 ∧ unitLeaseInvariant (terminateLease s id td now).2 := by
  unfold terminateLease
  cases hF : findLease s id with
  | none => exact ⟨hwf, hinv⟩
  | some l0 =>
    dsimp only
    by_cases hst : (l0.status == LeaseStatus.TERMINATED) = true
    · rw [if_pos hst]
      exact ⟨hwf, hinv⟩
    · rw [if_neg hst]
      obtain ⟨hmem, hid⟩ := findLease_mem hF
      have hact : l0.status = LeaseStatus.ACTIVE := by
        cases hcs : l0.status
        · rfl
        · exact absurd (by simp [hcs]) hst
      set upd : Lease :=
        { l0 with status := LeaseStatus.TERMINATED, end_date := some (td.getD now) } with hupd
      have hwf1 : wfStore (updateLeaseRow s id upd) :=
        wfStore_updateLeaseRow s id upd (by rw [hupd]; exact hid) hwf
      have hcnt : ∀ lid', activeCount (updateLeaseRow s id upd) lid'
          + (if activeFor lid' l0 then 1 else 0) = activeCount s lid' := by
        intro lid'
        have h := activeCount_updateLeaseRow s upd hwf.1 hF lid'
        have hupd0 : activeFor lid' upd = false := by simp [activeFor, hupd]
        rw [hupd0] at h
        simpa using h
      constructor
      · exact wfStore_updateLocalStatus _ _ _ hwf1
      · intro loc' hloc'
        obtain ⟨loc, hloc, heq⟩ := List.mem_map.mp hloc'
        by_cases hcase : loc.id = l0.local_id
        · have hl' : loc' = { loc with status := LocalStatus.AVAILABLE } := by
            rw [← heq]; simp [hcase]
          have hge : 0 < activeCount s l0.local_id := by
            rw [activeCount_eq_countP]
            exact List.countP_pos_iff.mpr ⟨l0, hmem, by simp [activeFor, hact]⟩
          have hle : activeCount s l0.local_id ≤ 1 := by
            have h := (hinv loc hloc).2
            rw [hcase] at h
            exact h
          have hF0 : activeFor l0.local_id l0 = true := by simp [activeFor, hact]
          have hnew : activeCount (updateLeaseRow s id upd) l0.local_id = 0 := by
            have h := hcnt l0.local_id
            rw [hF0] at h
            simp only [if_pos] at h
            omega
          have hid' : loc'.id = l0.local_id := by
            rw [hl']
            simpa using hcase
          refine ⟨⟨?_, ?_⟩, ?_⟩
          · intro hocc
            exact absurd hocc (by simp [hl'])
          · intro hc1
            rw [activeCount_updateLocalStatus, hid', hnew] at hc1
            exact absurd hc1 (by decide)
          · rw [activeCount_updateLocalStatus, hid', hnew]
            decide
        · have hl' : loc' = loc := by
            rw [← heq]; simp [hcase]
          have hne : activeFor loc.id l0 = false := by
            have : l0.local_id ≠ loc.id := fun h => hcase h.symm
            simp [activeFor, this]
          have hsame : activeCount (updateLeaseRow s id upd) loc.id = activeCount s loc.id := by
            have h := hcnt loc.id
            rw [hne] at h
            simpa using h
          rw [hl', activeCount_updateLocalStatus, hsame]
          exact hinv loc hloc

/-! ## State characterization of the three handlers -/

lemma leases_updateLocalStatus (s : Store) (lid : String) (st : LocalStatus) :
    (updateLocalStatus s lid st).leases = s.leases := rfl

lemma findLocal_updateLeaseRow (s : Store) (id : String) (upd : Lease) (q : String) :
    findLocal (updateLeaseRow s id upd) q = findLocal s q := rfl

lemma createLease_state (s : Store) (inp : CreateLeaseInput) (nid : String) :
    (∃ c m, createLease s inp nid = (LeaseResult.err c m, s)) ∨
    ∃ nl : Lease, nl.id = nid ∧ nl.status = LeaseStatus.ACTIVE ∧ nl.local_id = inp.local_id ∧
      createLease s inp nid
        = (LeaseResult.ok nl, updateLocalStatus { s with leases := s.leases ++ [nl] }
            inp.local_id LocalStatus.OCCUPIED) := by
  unfold createLease createLeaseF
  cases hT : findTenant s inp.tenant_id with
  | none => exact Or.inl ⟨404, _, rfl⟩
  | some t =>
    cases hL : findLocal s inp.local_id with
    | none => exact Or.inl ⟨404, _, rfl⟩
    | some loc0 =>
      dsimp only
      by_cases hav : loc0.status ≠ LocalStatus.AVAILABLE
      · rw [if_pos hav]; exact Or.inl ⟨400, _, rfl⟩
      · rw [if_neg hav]
        by_cases hact : (activeLeasesOf s inp.local_id).length > 0
        · rw [if_pos hact]; exact Or.inl ⟨400, _, rfl⟩
        · rw [if_neg hact]
          cases hR : findLeaseByRef s inp.lease_reference with
          | some _ => exact Or.inl ⟨400, _, rfl⟩
          | none => exact Or.inr ⟨_, rfl, rfl, rfl, rfl⟩

lemma terminateLease_state (s : Store) (id : String) (td : Option Nat) (now : Nat) :
    (∃ c m, terminateLease s id td now = (LeaseResult.err c m, s)) ∨
    ∃ l0 : Lease, findLease s id = some l0 ∧ l0.status = LeaseStatus.ACTIVE ∧
      terminateLease s id td now
        = (LeaseResult.ok { l0 with status := LeaseStatus.TERMINATED, end_date := some (td.getD now) },
           updateLocalStatus (updateLeaseRow s id
              { l0 with status := LeaseStatus.TERMINATED, end_date := some (td.getD now) })
              l0.local_id LocalStatus.AVAILABLE) := by
  unfold terminateLease
  cases hF : findLease s id with
  | none => exact Or.inl ⟨404, _, rfl⟩
  | some l0 =>
    dsimp only
    by_cases hst : (l0.status == LeaseStatus.TERMINATED) = true
    · rw [if_pos hst]; exact Or.inl ⟨400, _, rfl⟩
    · rw [if_neg hst]
      have hact : l0.status = LeaseStatus.ACTIVE := by
        cases hcs : l0.status
        · rfl
        · exact absurd (by simp [hcs]) hst
      exact Or.inr ⟨l0, rfl, hact, rfl⟩

lemma updateLease_state (s : Store) (inp : UpdateLeaseInput) :
    (∃ c m, updateLease s inp = (LeaseResult.err c m, s)) ∨
    ∃ ex : Lease, findLease s inp.id = some ex ∧
      updateLease s inp
        = (LeaseResult.ok (appliedLeaseUpdate ex inp),
           if (inp.status == some LeaseStatus.TERMINATED) = true
           then updateLocalStatus (updateLeaseRow s inp.id (appliedLeaseUpdate ex inp))
                  ex.local_id LocalStatus.AVAILABLE
           else updateLeaseRow s inp.id (appliedLeaseUpdate ex inp)) := by
  unfold updateLease
  cases hF : findLease s inp.id with
  | none => exact Or.inl ⟨404, _, rfl⟩
  | some ex =>
    dsimp only
    by_cases hrc : (match inp.lease_reference with
      | some r => if r ≠ ex.lease_reference then (findLeaseByRef s r).isSome else false
      | none => false) = true
    · rw [if_pos hrc]; exact Or.inl ⟨400, _, rfl⟩
    · rw [if_neg hrc]; exact Or.inr ⟨ex, rfl, rfl⟩

/-! ## Aggregation lemmas for the revenue report -/

lemma revenueData_amount_sum (ps : List Payment) (s e : PDate) (gb : GroupBy) :
    ((revenueData ps s e gb).map RevenueRow.amount).sum
      = ((revenueFilter ps s e).map Payment.amount).sum := by
  unfold revenueData groupRows
  rw [List.map_map]
  show (((revenueFilter ps s e).map (bucketKey gb)).dedup.map
      (fun key =>
        (((revenueFilter ps s e).filter (fun p => bucketKey gb p == key)).map
          Payment.amount).sum)).sum
    = ((revenueFilter ps s e).map Payment.amount).sum
  exact sum_over_keys Payment.amount (bucketKey gb) _ _ (List.nodup_dedup _)
    (fun x hx => List.mem_dedup.mpr (List.mem_map_of_mem _ hx))

lemma revenueData_count_sum (ps : List Payment) (s e : PDate) (gb : GroupBy) :
    ((revenueData ps s e gb).map RevenueRow.count).sum = (revenueFilter ps s e).length := by
  unfold revenueData groupRows
  rw [List.map_map]
  show (((revenueFilter ps s e).map (bucketKey gb)).dedup.map
      (fun key =>
        ((revenueFilter ps s e).filter (fun p => bucketKey gb p == key)).length)).sum
    = (revenueFilter ps s e).length
  have hfn : (fun key =>
      ((revenueFilter ps s e).filter (fun p => bucketKey gb p == key)).length)
      = (fun key =>
        (((revenueFilter ps s e).filter (fun p => bucketKey gb p == key)).map
          (fun _ => (1 : Nat))).sum) :=
    funext fun key => length_eq_sum_map_one _
  rw [hfn, sum_over_keys (fun _ => (1 : Nat)) (bucketKey gb) _ _ (List.nodup_dedup _)
    (fun x hx => List.mem_dedup.mpr (List.mem_map_of_mem _ hx))]
  exact (length_eq_sum_map_one _).symm

lemma revenueByMode_amount_sum (ps : List Payment) (s e : PDate) :
    ((revenueByMode ps s e).map ModeRow.amount).sum
      = ((revenueFilter ps s e).map Payment.amount).sum := by
  unfold revenueByMode
  rw [List.map_map]
  show (((revenueFilter ps s e).map Payment.payment_mode_id).dedup.map
      (fun m =>
        (((revenueFilter ps s e).filter (fun p => p.payment_mode_id == m)).map
          Payment.amount).sum)).sum
    = ((revenueFilter ps s e).map Payment.amount).sum
  exact sum_over_keys Payment.amount Payment.payment_mode_id _ _ (List.nodup_dedup _)
    (fun x hx => List.mem_dedup.mpr (List.mem_map_of_mem _ hx))

lemma revenueByMode_count_sum (ps : List Payment) (s e : PDate) :
    ((revenueByMode ps s e).map ModeRow.count).sum = (revenueFilter ps s e).length := by
  unfold revenueByMode
  rw [List.map_map]
  show (((revenueFilter ps s e).map Payment.payment_mode_id).dedup.map
      (fun m =>
        ((revenueFilter ps s e).filter (fun p => p.payment_mode_id == m)).length)).sum
    = (revenueFilter ps s e).length
  have hfn : (fun m =>
      ((revenueFilter ps s e).filter (fun p => p.payment_mode_id == m)).length)
      = (fun m =>
        (((revenueFilter ps s e).filter (fun p => p.payment_mode_id == m)).map
          (fun _ => (1 : Nat))).sum) :=
    funext fun m => length_eq_sum_map_one _
  rw [hfn, sum_over_keys (fun _ => (1 : Nat)) Payment.payment_mode_id _ _ (List.nodup_dedup _)
    (fun x hx => List.mem_dedup.mpr (List.mem_map_of_mem _ hx))]
  exact (length_eq_sum_map_one _).symm

lemma revenueFilter_append_excluded (ps : List Payment) (p : Payment) (s e : PDate)
    (h : inRange s e p = false) : revenueFilter (ps ++ [p]) s e = revenueFilter ps s e := by
  simp [revenueFilter, List.filter_append, h]

lemma not_mem_removeFile (fs : List String) (p : String) : p ∉ removeFile fs p := by
  intro h
  have h' := List.mem_filter.mp h
  simp at h'

/-! ## Claim theorems -/

/-- C1, counterexample: the invariant is not preserved by all three lease
operations.  From the base store (one tenant, one AVAILABLE unit) the
sequence createLease L1, terminateLease L1, createLease L2, then
updateLease of L1 with body `{ status: 'ACTIVE' }` is reachable, and it
leaves unit u1 with TWO ACTIVE leases — `updateLease` writes the supplied
status unconditionally and never re-checks the target unit. -/
theorem c1_counterexample :
    unitLeaseInvariant demoStore ∧ wfStore demoStore ∧ LeaseOpReachable demoStore c1s4 ∧
      activeCount c1s4 "u1" = 2 ∧ ¬ unitLeaseInvariant c1s4 := by
  refine ⟨by decide, by decide, ?_, by decide, by decide⟩
  have h1 : LeaseOpStep demoStore c1s1 := LeaseOpStep.create demoStore c1inp1 "L1" (by decide)
  have h2 : LeaseOpStep c1s1 c1s2 := LeaseOpStep.terminate c1s1 "L1" none 5
  have h3 : LeaseOpStep c1s2 c1s3 := LeaseOpStep.create c1s2 c1inp2 "L2" (by decide)
  have h4 : LeaseOpStep c1s3 c1s4 := LeaseOpStep.update c1s3 c1upd
  exact .step _ _ (.step _ _ (.step _ _ (.step _ _ .refl h1) h2) h3) h4

/-- C1 (amended): in every state reachable from a well-formed state
satisfying the unit/lease invariant by any sequence of `createLease` and
`terminateLease` calls (the dedicated lifecycle operations, excluding the
generic `updateLease`), every unit is OCCUPIED iff exactly one ACTIVE lease
references it, and no unit has more than one ACTIVE lease. -/
theorem c1_invariant_create_terminate (s t : Store) (hwf : wfStore s)
    (hinv : unitLeaseInvariant s) (h : CTReachable s t) :
    wfStore t ∧ unitLeaseInvariant t := by
  induction h with
  | refl => exact ⟨hwf, hinv⟩
  | step t' u hr hstep ih =>
    obtain ⟨hwft, hinvt⟩ := ih
    cases hstep with
    | create inp nid hfresh => exact createLease_preserves _ inp nid hfresh hwft hinvt
    | terminate id td now => exact terminateLease_preserves _ id td now hwft hinvt

/-- Witness for C1: the amended theorem applied to the base store and one
concrete `createLease` step. -/
theorem c1_invariant_create_terminate_witness :
    wfStore demoStore ∧ unitLeaseInvariant demoStore ∧
      wfStore c1s1 ∧ unitLeaseInvariant c1s1 := by
  have hreach : CTReachable demoStore c1s1 :=
    .step _ _ .refl (CTStep.create demoStore c1inp1 "L1" (by decide))
  have h := c1_invariant_create_terminate demoStore c1s1 (by decide) (by decide) hreach
  exact ⟨by decide, by decide, h.1, h.2⟩

/-- C2: `createLease` performs its two writes without a transaction.  If the
unit-status update throws after the lease row was inserted (failure flag
`failUnitUpdate`), the handler returns 500 but the new ACTIVE lease row
remains observable while the unit still reads AVAILABLE — a partial effect
that also breaks the unit/lease invariant. -/
theorem c2_partial_write_on_failure :
    (createLeaseF demoStore c1inp1 "L1" false true).1
        = LeaseResult.err 500 "Internal server error" ∧
      (findLease (createLeaseF demoStore c1inp1 "L1" false true).2 "L1").map Lease.status
        = some LeaseStatus.ACTIVE ∧
      (findLocal (createLeaseF demoStore c1inp1 "L1" false true).2 "u1").map Local.status
        = some LocalStatus.AVAILABLE ∧
      unitLeaseInvariant demoStore ∧
      ¬ unitLeaseInvariant (createLeaseF demoStore c1inp1 "L1" false true).2 := by
  exact ⟨by decide, by decide, by decide, by decide, by decide⟩

/-- C3: `createLease` rejects an absent tenant with 404, an absent unit with
404, and a unit that already carries an ACTIVE lease with a 400 conflict; in
every one of these cases the returned store is exactly the pre-call store
(prior lease, unit status, and everything else unchanged). -/
theorem c3_createLease_rejects (s : Store) (inp : CreateLeaseInput) (nid : String) :
    (findTenant s inp.tenant_id = none →
      createLease s inp nid = (LeaseResult.err 404 "Tenant not found", s)) ∧
    (findTenant s inp.tenant_id ≠ none → findLocal s inp.local_id = none →
      createLease s inp nid = (LeaseResult.err 404 "Local not found", s)) ∧
    (findTenant s inp.tenant_id ≠ none → (∃ loc, findLocal s inp.local_id = some loc) →
      (∃ l ∈ s.leases, l.local_id = inp.local_id ∧ l.status = LeaseStatus.ACTIVE) →
      ∃ msg, createLease s inp nid = (LeaseResult.err 400 msg, s)) := by
  refine ⟨?_, ?_, ?_⟩
  · intro hT
    unfold createLease createLeaseF
    rw [hT]
  · intro hT hL
    unfold createLease createLeaseF
    cases hTe : findTenant s inp.tenant_id with
    | none => exact absurd hTe hT
    | some t => rw [hL]
  · rintro hT ⟨loc, hL⟩ ⟨l, hlmem, hlloc, hlact⟩
    have hlen : (activeLeasesOf s inp.local_id).length > 0 := by
      have hmem : l ∈ activeLeasesOf s inp.local_id :=
        List.mem_filter.mpr ⟨hlmem, by simp [hlloc, hlact]⟩
      cases hnil : activeLeasesOf s inp.local_id with
      | nil => rw [hnil] at hmem; exact absurd hmem (by simp)
      | cons a as => simp [hnil]
    unfold createLease createLeaseF
    cases hTe : findTenant s inp.tenant_id with
    | none => exact absurd hTe hT
    | some t =>
      rw [hL]
      dsimp only
      by_cases hav : loc.status ≠ LocalStatus.AVAILABLE
      · exact ⟨"Local is not available", by rw [if_pos hav]⟩
      · exact ⟨"Local is already leased", by rw [if_neg hav, if_pos hlen]⟩

/-- Witness for C3: creating a second lease on the occupied unit u1 of
`activeStore` is rejected with a 400 conflict and leaves the store
untouched. -/
theorem c3_createLease_rejects_witness :
    ∃ msg, createLease activeStore c1inp2 "L2" = (LeaseResult.err 400 msg, activeStore) :=
  (c3_createLease_rejects activeStore c1inp2 "L2").2.2 (by decide)
    ⟨occupiedLocal, by decide⟩ ⟨activeLease, by decide, by decide, by decide⟩

/-- C4, counterexample: `updateLease` resurrects a TERMINATED lease.  In
`c4store` the lease L1 is TERMINATED, yet the update request with body
`{ status: 'ACTIVE' }` succeeds and afterwards L1 reads ACTIVE. -/
theorem c4_counterexample :
    c4lease.status = LeaseStatus.TERMINATED ∧ findLease c4store "L1" = some c4lease ∧
      (updateLease c4store c1upd).1
        = LeaseResult.ok { c4lease with status := LeaseStatus.ACTIVE } ∧
      (findLease (updateLease c4store c1upd).2 "L1").map Lease.status
        = some LeaseStatus.ACTIVE := by
  exact ⟨by decide, by decide, by decide, by decide⟩

/-- C4 (amended): TERMINATED is terminal for `createLease` and
`terminateLease` (with any input and any outcome), and for every
`updateLease` request whose status field is not ACTIVE; an `updateLease`
request with status ACTIVE, however, sets a TERMINATED lease back to ACTIVE
(see the counterexample). -/
theorem c4_terminated_terminal (s : Store) (hwf : wfStore s) (l0 : Lease)
    (hmem : l0 ∈ s.leases) (hterm : l0.status = LeaseStatus.TERMINATED) :
    (∀ (inp : CreateLeaseInput) (nid : String), nid ≠ l0.id →
      ∀ l' ∈ (createLease s inp nid).2.leases, l'.id = l0.id →
        l'.status = LeaseStatus.TERMINATED) ∧
    (∀ (id : String) (td : Option Nat) (now : Nat),
      ∀ l' ∈ (terminateLease s id td now).2.leases, l'.id = l0.id →
        l'.status = LeaseStatus.TERMINATED) ∧
    (∀ inp : UpdateLeaseInput, inp.status ≠ some LeaseStatus.ACTIVE →
      ∀ l' ∈ (updateLease s inp).2.leases, l'.id = l0.id →
        l'.status = LeaseStatus.TERMINATED) := by
  refine ⟨?_, ?_, ?_⟩
  · intro inp nid hnid l' hl' hid'
    rcases createLease_state s inp nid with ⟨c, m, h⟩ | ⟨nl, hnlid, _, _, h⟩
    · rw [h] at hl'
      rw [eq_of_mem_of_id_eq hwf.1 hl' hmem hid']
      exact hterm
    · rw [h] at hl'
      have hl'' : l' ∈ s.leases ++ [nl] := hl'
      rcases List.mem_append.mp hl'' with hle | hr
      · rw [eq_of_mem_of_id_eq hwf.1 hle hmem hid']
        exact hterm
      · have hnl' : l' = nl := by simpa using hr
        rw [hnl'] at hid'
        rw [hnlid] at hid'
        exact absurd hid' hnid
  · intro id td now l' hl' hid'
    rcases terminateLease_state s id td now with ⟨c, m, h⟩ | ⟨lx, hF, hxact, h⟩
    · rw [h] at hl'
      rw [eq_of_mem_of_id_eq hwf.1 hl' hmem hid']
      exact hterm
    · rw [h] at hl'
      have hl'' : l' ∈ (updateLeaseRow s id
          { lx with status := LeaseStatus.TERMINATED, end_date := some (td.getD now) }).leases :=
        hl'
      obtain ⟨x, hx, heq⟩ := List.mem_map.mp hl''
      by_cases hxid : (x.id == id) = true
      · rw [← heq, if_pos hxid]
      · have hx' : l' = x := by rw [← heq, if_neg (by simpa using hxid)]
        rw [hx'] at hid' ⊢
        rw [eq_of_mem_of_id_eq hwf.1 hx hmem hid']
        exact hterm
  · intro inp hst l' hl' hid'
    rcases updateLease_state s inp with ⟨c, m, h⟩ | ⟨ex, hF, h⟩
    · rw [h] at hl'
      rw [eq_of_mem_of_id_eq hwf.1 hl' hmem hid']
      exact hterm
    · have hl'' : l' ∈ (updateLeaseRow s inp.id (appliedLeaseUpdate ex inp)).leases := by
        by_cases hc : (inp.status == some LeaseStatus.TERMINATED) = true
        · rw [h] at hl'
          rw [if_pos hc] at hl'
          exact hl'
        · rw [h] at hl'
          rw [if_neg hc] at hl'
          exact hl'
      obtain ⟨x, hx, heq⟩ := List.mem_map.mp hl''
      obtain ⟨hexmem, hexid⟩ := findLease_mem hF
      by_cases hxid : (x.id == inp.id) = true
      · have hl0 : l' = appliedLeaseUpdate ex inp := by rw [← heq, if_pos hxid]
        have hidap : (appliedLeaseUpdate ex inp).id = ex.id := rfl
        have hexl0 : ex = l0 := by
          apply eq_of_mem_of_id_eq hwf.1 hexmem hmem
          rw [← hidap, ← hl0]
          exact hid'
        have hexterm : ex.status = LeaseStatus.TERMINATED := by rw [hexl0]; exact hterm
        rw [hl0]
        show inp.status.getD ex.status = LeaseStatus.TERMINATED
        cases hos : inp.status with
        | none => simpa [hos] using hexterm
        | some st =>
          cases st with
          | ACTIVE => exact absurd hos hst
          | TERMINATED => simp [hos]
      · have hx' : l' = x := by rw [← heq, if_neg (by simpa using hxid)]
        rw [hx'] at hid' ⊢
        rw [eq_of_mem_of_id_eq hwf.1 hx hmem hid']
        exact hterm

/-- Witness for C4: applied to `c4store` and the second `terminateLease` call
on the already-terminated lease L1. -/
theorem c4_terminated_terminal_witness : c4lease.status = LeaseStatus.TERMINATED :=
  (c4_terminated_terminal c4store (by decide) c4lease (by decide) (by decide)).2.1
    "L1" none 7 c4lease (by decide) (by decide)

/-- C5: whenever `updateLease` is called on an existing lease with
`status: 'TERMINATED'` and the update succeeds, the lease's unit reads
AVAILABLE afterwards — the same unit-status side effect as the dedicated
`terminateLease`. -/
theorem c5_update_terminated_frees_unit (s : Store) (inp : UpdateLeaseInput) (l0 : Lease)
    (hfind : findLease s inp.id = some l0) (loc0 : Local)
    (hloc : findLocal s l0.local_id = some loc0)
    (hst : inp.status = some LeaseStatus.TERMINATED)
    (l' : Lease) (hsucc : (updateLease s inp).1 = LeaseResult.ok l') :
    ∃ loc', findLocal (updateLease s inp).2 l0.local_id = some loc'
      ∧ loc'.status = LocalStatus.AVAILABLE := by
  rcases updateLease_state s inp with ⟨c, m, h⟩ | ⟨ex, hF, h⟩
  · rw [h] at hsucc
    exact absurd hsucc (by simp)
  · have hex : ex = l0 := by
      have := hF.symm.trans hfind
      exact Option.some.inj this
    have hb : (inp.status == some LeaseStatus.TERMINATED) = true := by
      rw [hst]; rfl
    rw [h, if_pos hb]
    rw [hex]
    show ∃ loc', findLocal (updateLocalStatus (updateLeaseRow s inp.id
        (appliedLeaseUpdate l0 inp)) l0.local_id LocalStatus.AVAILABLE) l0.local_id
      = some loc' ∧ loc'.status = LocalStatus.AVAILABLE
    rw [findLocal_updateLocalStatus, findLocal_updateLeaseRow, hloc]
    have hid0 : loc0.id = l0.local_id := (findLocal_mem hloc).2
    refine ⟨{ loc0 with status := LocalStatus.AVAILABLE }, ?_, rfl⟩
    simp [hid0]

/-- Witness for C5: terminating the active lease of `activeStore` through the
generic update path flips unit u1 back to AVAILABLE. -/
theorem c5_update_terminated_frees_unit_witness :
    ∃ loc', findLocal (updateLease activeStore
        { id := "L1", lease_reference := none, start_date := none, end_date := none,
          rent_amount := none, billing_cycle := none,
          status := some LeaseStatus.TERMINATED }).2 "u1" = some loc'
      ∧ loc'.status = LocalStatus.AVAILABLE :=
  c5_update_terminated_frees_unit activeStore
    { id := "L1", lease_reference := none, start_date := none, end_date := none,
      rent_amount := none, billing_cycle := none, status := some LeaseStatus.TERMINATED }
    activeLease (by decide) occupiedLocal (by decide) rfl
    { activeLease with status := LeaseStatus.TERMINATED } (by decide)

/-- C6: calling `terminateLease` on an already-TERMINATED lease returns the
400 conflict response and returns the store unchanged; on an ACTIVE lease it
returns the lease with status TERMINATED and end date equal to the supplied
termination date (or the current time when none is supplied), updates every
stored row with that lease id accordingly, and sets the lease's unit to
AVAILABLE. -/
theorem c6_terminate_behaviour (s : Store) (id : String) (td : Option Nat) (now : Nat)
    (l0 : Lease) (hfind : findLease s id = some l0) :
    (l0.status = LeaseStatus.TERMINATED →
      terminateLease s id td now = (LeaseResult.err 400 "Lease is already terminated", s)) ∧
    (l0.status = LeaseStatus.ACTIVE →
      (terminateLease s id td now).1
          = LeaseResult.ok { l0 with status := LeaseStatus.TERMINATED, end_date := some (td.getD now) } ∧
      (∀ l' ∈ (terminateLease s id td now).2.leases, l'.id = id →
        l'.status = LeaseStatus.TERMINATED ∧ l'.end_date = some (td.getD now)) ∧
      (∀ loc0, findLocal s l0.local_id = some loc0 →
        findLocal (terminateLease s id td now).2 l0.local_id
          = some { loc0 with status := LocalStatus.AVAILABLE })) := by
  constructor
  · intro hterm
    unfold terminateLease
    rw [hfind]
    dsimp only
    rw [if_pos (by simp [hterm])]
  · intro hact
    rcases terminateLease_state s id td now with ⟨c, m, h⟩ | ⟨lx, hF, hxact, h⟩
    · rw [h]
      unfold terminateLease at h
      rw [hfind] at h
      dsimp only at h
      rw [if_neg (by simp [hact])] at h
      exact absurd (congrArg Prod.fst h) (by simp)
    · have hex : lx = l0 := Option.some.inj (hF.symm.trans hfind)
      rw [hex] at h
      refine ⟨by rw [h], ?_, ?_⟩
      · intro l' hl' hid'
        rw [h] at hl'
        have hl'' : l' ∈ (updateLeaseRow s id
            { l0 with status := LeaseStatus.TERMINATED, end_date := some (td.getD now) }).leases :=
          hl'
        obtain ⟨x, hx, heq⟩ := List.mem_map.mp hl''
        by_cases hxid : (x.id == id) = true
        · rw [← heq, if_pos hxid]
          exact ⟨rfl, rfl⟩
        · have hx' : l' = x := by rw [← heq, if_neg (by simpa using hxid)]
          rw [hx'] at hid'
          exact absurd hid' (by simpa using hxid)
      · intro loc0 hloc
        rw [h]
        show findLocal (updateLocalStatus (updateLeaseRow s id
            { l0 with status := LeaseStatus.TERMINATED, end_date := some (td.getD now) })
            l0.local_id LocalStatus.AVAILABLE) l0.local_id
          = some { loc0 with status := LocalStatus.AVAILABLE }
        rw [findLocal_updateLocalStatus, findLocal_updateLeaseRow, hloc]
        have hid0 : loc0.id = l0.local_id := (findLocal_mem hloc).2
        simp [hid0]

/-- Witness for C6: both branches at concrete stores — the repeated
termination of the TERMINATED lease in `c4store` is rejected with the
conflict response and leaves the store unchanged, and terminating the ACTIVE
lease of `activeStore` with termination date 42 flips unit u1 to
AVAILABLE. -/
theorem c6_terminate_behaviour_witness :
    terminateLease c4store "L1" (some 9) 7
        = (LeaseResult.err 400 "Lease is already terminated", c4store) ∧
      (terminateLease activeStore "L1" (some 42) 7).1
        = LeaseResult.ok { activeLease with status := LeaseStatus.TERMINATED, end_date := some 42 } ∧
      findLocal (terminateLease activeStore "L1" (some 42) 7).2 "u1"
        = some { occupiedLocal with status := LocalStatus.AVAILABLE } := by
  refine ⟨?_, ?_, ?_⟩
  · exact (c6_terminate_behaviour c4store "L1" (some 9) 7 c4lease (by decide)).1 (by decide)
  · exact ((c6_terminate_behaviour activeStore "L1" (some 42) 7 activeLease
      (by decide)).2 (by decide)).1
  · exact ((c6_terminate_behaviour activeStore "L1" (some 42) 7 activeLease
      (by decide)).2 (by decide)).2.2 occupiedLocal (by decide)

/-- C7: the revenue report aggregates exactly the COMPLETED payments whose
paid_at lies in the inclusive date range: the grand total equals the sum of
the filtered payments' amounts (hence the sum of the per-period amounts),
the per-payment-mode amounts sum to the same grand total, the transaction
counts agree the same way, adding a payment that fails the filter (for
example a PENDING one) leaves the whole report unchanged, and the concrete
scenario (completed 100 and 50 plus pending 200 in June 2025) yields one
row with amount 150 and count 2. -/
theorem c7_revenue_report :
    (∀ (ps : List Payment) (s e : PDate) (gb : GroupBy),
      totalRevenue ps s e gb = ((revenueFilter ps s e).map Payment.amount).sum ∧
      ((revenueByMode ps s e).map ModeRow.amount).sum = totalRevenue ps s e gb ∧
      totalTransactions ps s e gb = (revenueFilter ps s e).length ∧
      ((revenueByMode ps s e).map ModeRow.count).sum = totalTransactions ps s e gb) ∧
    (∀ (ps : List Payment) (p : Payment) (s e : PDate) (gb : GroupBy),
      inRange s e p = false →
        revenueData (ps ++ [p]) s e gb = revenueData ps s e gb ∧
        totalRevenue (ps ++ [p]) s e gb = totalRevenue ps s e gb) ∧
    inRange c7start c7end c7p3 = false ∧
    revenueData [c7p1, c7p2, c7p3] c7start c7end GroupBy.month
        = [{ period := [2025, 6], amount := 150, count := 2 }] ∧
    totalRevenue [c7p1, c7p2, c7p3] c7start c7end GroupBy.month = 150 ∧
    totalTransactions [c7p1, c7p2, c7p3] c7start c7end GroupBy.month = 2 := by
  refine ⟨?_, ?_, by decide, by decide, by decide, by decide⟩
  · intro ps s e gb
    refine ⟨revenueData_amount_sum ps s e gb, ?_, revenueData_count_sum ps s e gb, ?_⟩
    · rw [revenueByMode_amount_sum]
      exact (revenueData_amount_sum ps s e gb).symm
    · rw [revenueByMode_count_sum]
      exact (revenueData_count_sum ps s e gb).symm
  · intro ps p s e gb h
    have hf := revenueFilter_append_excluded ps p s e h
    constructor
    · unfold revenueData
      rw [hf]
    · unfold totalRevenue revenueData
      rw [hf]

/-- Witness for C7: appending the PENDING June payment to the two COMPLETED
ones leaves the revenue report unchanged. -/
theorem c7_revenue_report_witness :
    revenueData ([c7p1, c7p2] ++ [c7p3]) c7start c7end GroupBy.month
        = revenueData [c7p1, c7p2] c7start c7end GroupBy.month ∧
      totalRevenue [c7p1, c7p2, c7p3] c7start c7end GroupBy.month
        = ((revenueFilter [c7p1, c7p2, c7p3] c7start c7end).map Payment.amount).sum :=
  ⟨(c7_revenue_report.2.1 [c7p1, c7p2] c7p3 c7start c7end GroupBy.month (by decide)).1,
   (c7_revenue_report.1 [c7p1, c7p2, c7p3] c7start c7end GroupBy.month).1⟩

/-- C8: the per-property occupancy rate equals occupied/total × 100 rounded
to two decimals (a rational-arithmetic model of the JavaScript numbers), it
is exactly 0 for a property with zero units (the guarded branch, no
division is attempted), and the overall rate — computed in the source with
the distinct multiplier `Math.round(x * 10000) / 100` — satisfies the same
two properties. -/
theorem c8_occupancy_rate_guarded :
    (∀ locs : List Local,
      propertyOccupancy locs
          = roundTo2 ((occupiedCount locs : ℚ) / (locs.length : ℚ) * 100) ∧
      (locs.length = 0 → propertyOccupancy locs = 0)) ∧
    (∀ props : List (List Local),
      overallOccupancyRate props
          = roundTo2 (((props.map occupiedCount).sum : ℚ)
              / ((props.map List.length).sum : ℚ) * 100) ∧
      ((props.map List.length).sum = 0 → overallOccupancyRate props = 0)) := by
  constructor
  · intro locs
    by_cases h : locs.length > 0
    · constructor
      · simp only [propertyOccupancy, roundTo2, if_pos h]
      · intro h0
        omega
    · have h0 : locs.length = 0 := Nat.eq_zero_of_not_pos h
      constructor
      · simp [propertyOccupancy, roundTo2, if_neg h, h0]
      · intro _
        simp [propertyOccupancy, if_neg h]
  · intro props
    by_cases h : (props.map List.length).sum > 0
    · constructor
      · simp only [overallOccupancyRate, roundTo2, if_pos h]
        congr 2
        ring_nf
      · intro h0
        omega
    · have h0 : (props.map List.length).sum = 0 := Nat.eq_zero_of_not_pos h
      constructor
      · simp [overallOccupancyRate, roundTo2, if_neg h, h0]
      · intro _
        simp [overallOccupancyRate, if_neg h]

/-- Witness for C8: a property with zero units reports rate exactly 0, and
so does a portfolio whose only property has zero units. -/
theorem c8_occupancy_rate_guarded_witness :
    propertyOccupancy [] = 0 ∧ overallOccupancyRate [[]] = 0 :=
  ⟨(c8_occupancy_rate_guarded.1 []).2 rfl, (c8_occupancy_rate_guarded.2 [[]]).2 (by decide)⟩

/-- C9: every `uploadDocument` request that carries an uploaded file and ends
in an error response (missing owner_table/owner_id/doc_type, invalid
owner_table, or non-existent owner entity) removes that file from storage
before returning, so no orphan file remains on any error path. -/
theorem c9_upload_cleanup (st : DocState) (req : UploadReq) (path : String)
    (hfile : req.file = some path) (c : Nat) (m : String)
    (herr : (uploadDocument st req).1 = DocResult.err c m) :
    path ∉ (uploadDocument st req).2.files := by
  obtain ⟨file, otf, oidf, dtf⟩ := req
  dsimp only at hfile
  subst hfile
  cases otf with
  | none => exact not_mem_removeFile st.files path
  | some ot =>
    cases oidf with
    | none => exact not_mem_removeFile st.files path
    | some oid =>
      cases dtf with
      | none => exact not_mem_removeFile st.files path
      | some dt =>
        unfold uploadDocument at herr ⊢
        dsimp only at herr ⊢
        split_ifs at herr ⊢ with h1 h2 h3 <;>
          exact not_mem_removeFile st.files path

/-- Witness for C9: an upload referencing a non-existent lease has its
already-written file removed from the upload directory. -/
theorem c9_upload_cleanup_witness :
    "uploads/documents/file-1.pdf" ∉ (uploadDocument c9state c9req).2.files :=
  c9_upload_cleanup c9state c9req "uploads/documents/file-1.pdf" rfl 404 "Lease not found"
    (by decide)

/-- C10: a successfully created payment carries the server-side creation
time as paid_at (any client-supplied paid_at is ignored — the handler never
reads it), an omitted status defaults to COMPLETED, and the payment is
never counted as overdue (PENDING with paid_at strictly in the past) at the
moment of its creation, even when the client explicitly requests PENDING. -/
theorem c10_payment_created_now (st : PayState) (inp : CreatePaymentInput)
    (nid : String) (now : PDate) (p : Payment) (st' : PayState)
    (h : createPayment st inp nid now = (PaymentResult.ok p, st')) :
    p.paid_at = now ∧ (inp.status = none → p.status = PaymentStatus.COMPLETED) ∧
      ¬ isOverdue p now ∧
      (∀ d, createPayment st { inp with paid_at := d } nid now
        = createPayment st inp nid now) := by
  unfold createPayment at h
  split_ifs at h with h1 h2
  · exact absurd h (by simp)
  · exact absurd h (by simp)
  · have hp : p =
        { id := nid
          lease_id := inp.lease_id
          amount := inp.amount
          paid_at := now
          payment_mode_id := inp.payment_mode_id
          reference := inp.reference
          status := inp.status.getD PaymentStatus.COMPLETED } := by
      have h' := congrArg Prod.fst h
      simpa using h'.symm
    refine ⟨by rw [hp], ?_, ?_, fun d => rfl⟩
    · intro h0
      rw [hp]
      simp [h0]
    · rintro ⟨hpend, hlt⟩
      have hpa : p.paid_at = now := by rw [hp]
      exact hlt.2 hpa

/-- Witness for C10: a request that explicitly asks for PENDING and supplies
a paid_at in the past still yields a payment stamped with the server time,
not overdue at creation. -/
theorem c10_payment_created_now_witness :
    c10payment.paid_at = c10now ∧ ¬ isOverdue c10payment c10now := by
  have h := c10_payment_created_now c10state c10inp "P1" c10now c10payment
    { leaseIds := ["L1"], paymentModeIds := ["m1"], payments := [c10payment] }
    (by decide)
  exact ⟨h.1, h.2.2.1⟩
